import Mathlib

/-!
Shallow embedding of the Leise bot's command-processing core (src/bot.py):
the shlex-based tokenizer, the key=value field-map builder, channel
resolution, the create render, and the edit merge.  Strings are modelled by
Lean `String` (a wrapper around `List Char`); Python truthiness of an
optional string is "present and non-empty".
-/

namespace LeiseBot

/-- Decidable equality of `Except` results, so that concrete render results
can be checked by `decide`. -/
instance {ε α : Type} [DecidableEq ε] [DecidableEq α] : DecidableEq (Except ε α) := fun x y =>
  match x, y with
  | .ok a, .ok b =>
    if h : a = b then isTrue (by rw [h])
    else isFalse (by intro he; cases he; exact h rfl)
  | .error a, .error b =>
    if h : a = b then isTrue (by rw [h])
    else isFalse (by intro he; cases he; exact h rfl)
  | .ok _, .error _ => isFalse (by intro he; cases he)
  | .error _, .ok _ => isFalse (by intro he; cases he)

/-- Characters that `shlex` treats as token separators (its whitespace set
is space, tab, carriage return, newline). -/
def isWs (c : Char) : Bool :=
  c == ' ' || c == '\t' || c == '\r' || c == '\n'

/-- Decimal value of a digit run, as computed by Python `int` on a string of
digits. -/
def natOfDigits (l : List Char) : Nat :=
  l.foldl (fun n c => 10 * n + (c.toNat - 48)) 0

/-- States of the `shlex` posix tokenizer: outside quotes, inside single
quotes, inside double quotes, after a backslash outside quotes, after a
backslash inside double quotes. -/
inductive ShState
  | norm
  | insingle
  | indouble
  | escNorm
  | escDouble
deriving DecidableEq

/-- One step short of `shlex.split` (posix mode, whitespace splitting):
processes the input character list carrying the state, the token built so
far, whether that token saw a quote (posix `shlex` emits an empty token for
an empty quoted string), and the tokens already emitted.  Returns `none` on
the two `ValueError` cases of `shlex`: an unterminated quote and a dangling
escape character at end of input. -/
def tokenizeAux : List Char → ShState → List Char → Bool → List (List Char) →
    Option (List (List Char))
  | [], .norm, tok, quoted, toks =>
    some (if tok ≠ [] ∨ quoted then toks ++ [tok] else toks)
  | [], .insingle, _, _, _ => none
  | [], .indouble, _, _, _ => none
  | [], .escNorm, _, _, _ => none
  | [], .escDouble, _, _, _ => none
  | c :: rest, .norm, tok, quoted, toks =>
    if isWs c then
      if tok ≠ [] ∨ quoted then tokenizeAux rest .norm [] false (toks ++ [tok])
      else tokenizeAux rest .norm [] false toks
    else if c = '\'' then tokenizeAux rest .insingle tok true toks
    else if c = '"' then tokenizeAux rest .indouble tok true toks
    else if c = '\\' then tokenizeAux rest .escNorm tok quoted toks
    else tokenizeAux rest .norm (tok ++ [c]) quoted toks
  | c :: rest, .insingle, tok, quoted, toks =>
    if c = '\'' then tokenizeAux rest .norm tok quoted toks
    else tokenizeAux rest .insingle (tok ++ [c]) quoted toks
  | c :: rest, .indouble, tok, quoted, toks =>
    if c = '"' then tokenizeAux rest .norm tok quoted toks
    else if c = '\\' then tokenizeAux rest .escDouble tok quoted toks
    else tokenizeAux rest .indouble (tok ++ [c]) quoted toks
  | c :: rest, .escNorm, tok, quoted, toks =>
    tokenizeAux rest .norm (tok ++ [c]) quoted toks
  | c :: rest, .escDouble, tok, quoted, toks =>
    if c = '"' ∨ c = '\\' then tokenizeAux rest .indouble (tok ++ [c]) quoted toks
    else tokenizeAux rest .indouble (tok ++ ['\\', c]) quoted toks

/-- Model of `shlex.split(args_str)` as called by `parse_arguments`:
`none` models the `ValueError` that `parse_arguments` catches. -/
def tokenize (s : String) : Option (List String) :=
  (tokenizeAux s.data .norm [] false []).map (fun ts => ts.map String.mk)

/-- ASCII lower-casing of a string, modelling Python `str.lower` on the
ASCII keys this program uses. -/
def lowerStr (s : String) : String :=
  String.mk (s.data.map Char.toLower)

/-- Model of the per-token step of the dict comprehension in
`parse_arguments`: a token containing `=` is split at the first `=` into a
lower-cased key and a verbatim value (`arg.split('=', 1)`); a token with no
`=` is dropped (`if '=' in arg`). -/
def splitKV (tok : String) : Option (String × String) :=
  if '=' ∈ tok.data then
    some (lowerStr (String.mk (tok.data.takeWhile (fun c => c ≠ '='))),
          String.mk ((tok.data.dropWhile (fun c => c ≠ '=')).tail)
         )
  else none

/-- A field map is the ordered list of key/value pairs produced from the
tokens; later pairs shadow earlier ones, modelling Python dict insertion. -/
abbrev FieldMap : Type := List (String × String)

/-- Model of the dict comprehension of `parse_arguments` line 50. -/
def buildFieldMap (tokens : List String) : FieldMap :=
  tokens.filterMap splitKV

/-- Dictionary lookup on a field map: the value of the last pair with the
given key, modelling `parsed_args.get(k)` / `k in parsed_args`. -/
def fmGet (fm : FieldMap) (k : String) : Option String :=
  (fm.reverse.find? (fun p => p.1 == k)).map Prod.snd

/-- Model of `parse_arguments`: tokenize with shlex, build the dict;
`none` models the `except ValueError: return None` branch. -/
def parse_arguments (s : String) : Option FieldMap :=
  (tokenize s).map buildFieldMap

/-- Python truthiness of an optional-string field: `fmGet` composed with
rejection of the empty string, so `truthyGet fm k = some v` exactly when
`parsed_args.get(k)` is a non-empty string `v`. -/
def truthyGet (fm : FieldMap) (k : String) : Option String :=
  match fmGet fm k with
  | some s => if s = "" then none else some s
  | none => none

/-- The rendered output handed to the send/edit capability: either plain
message content, or an embed with a description and optional thumbnail and
footer (the fixed embed color carries no information and is omitted). -/
inductive RenderedOutput
  | plainText (content : String)
  | embed (description : String) (thumbnailUrl : Option String) (footerText : Option String)
deriving DecidableEq

/-- The only validation error of the create render in the source: the
`message` field missing or empty (line 82, `if not message_content`). -/
inductive CreateErr
  | MissingMessage
deriving DecidableEq

/-- The link line appended to the description (lines 108-111): both link
and link text truthy appends the labelled hyperlink, link alone uses the
link as its own label, and no truthy link appends nothing — in particular
a truthy link text without a link is silently ignored. -/
def mkLinkLine : Option String → Option String → String
  | some l, some lt => "\n\n**[" ++ lt ++ "](" ++ l ++ ")**"
  | some l, none => "\n\n**[" ++ l ++ "](" ++ l ++ ")**"
  | none, _ => ""

/-- The create render of `send_custom_message` (lines 81-118), after
channel resolution is factored out: require a truthy `message`; with no
truthy embed field send plain text; otherwise build the embed. -/
def renderCreate (fm : FieldMap) : Except CreateErr RenderedOutput :=
  match truthyGet fm "message" with
  | none => .error .MissingMessage
  | some m =>
    let link := truthyGet fm "link"
    let linkText := truthyGet fm "link_text"
    let thumbnail := truthyGet fm "thumbnail"
    let footer := truthyGet fm "footer"
    if link = none ∧ linkText = none ∧ thumbnail = none ∧ footer = none then
      .ok (.plainText m)
    else
      .ok (.embed (m ++ mkLinkLine link linkText) thumbnail footer)

/-- Channel-resolution errors of `send_custom_message` lines 85-95. -/
inductive ChanErr
  | InvalidChannelFormat
  | ChannelNotFound (raw : String)
deriving DecidableEq

/-- Head match of the regex `<#(\d+)>`: an angle bracket, a hash, a
non-empty maximal digit run, a closing angle bracket; anything may follow. -/
def mentionAt : List Char → Option Nat
  | '<' :: '#' :: rest =>
    match rest.dropWhile Char.isDigit with
    | '>' :: _ =>
      if rest.takeWhile Char.isDigit = [] then none
      else some (natOfDigits (rest.takeWhile Char.isDigit))
    | _ => none
  | _ => none

/-- Model of `re.search(r'<#(\d+)>', value)` with `int` applied to the
captured group: the pattern is searched at every position, leftmost match
first. -/
def searchMention : List Char → Option Nat
  | [] => none
  | c :: rest =>
    match mentionAt (c :: rest) with
    | some id => some id
    | none => searchMention rest

/-- Channel resolution of `send_custom_message` lines 85-95: key membership
of `channel` (not truthiness) triggers resolution; a failed regex search is
the invalid-format error (`AttributeError` on `.group`); `bot.get_channel`
is the injected lookup; a lookup miss reports the raw input. -/
def resolveChannel (fm : FieldMap) (origin : Nat) (lookup : Nat → Option Nat) :
    Except ChanErr Nat :=
  match fmGet fm "channel" with
  | none => .ok origin
  | some raw =>
    match searchMention raw.data with
    | none => .error .InvalidChannelFormat
    | some id =>
      match lookup id with
      | some ch => .ok ch
      | none => .error (.ChannelNotFound raw)

/-- Drops the given prefix from a character list, or fails. -/
def dropPfx : List Char → List Char → Option (List Char)
  | [], l => some l
  | _ :: _, [] => none
  | p :: ps, c :: cs => if c = p then dropPfx ps cs else none

/-- Head match of the regex `/channels/\d+/(\d+)/(\d+)` of `edit_message`
line 144: a literal `/channels/` then three non-empty digit runs separated
by slashes; the first run (the guild identifier) is matched but discarded,
the second and third are the captured channel and message identifiers. -/
def refAt (l : List Char) : Option (Nat × Nat) :=
  match dropPfx "/channels/".data l with
  | none => none
  | some r1 =>
    if r1.takeWhile Char.isDigit = [] then none
    else
      match r1.dropWhile Char.isDigit with
      | '/' :: r2 =>
        if r2.takeWhile Char.isDigit = [] then none
        else
          match r2.dropWhile Char.isDigit with
          | '/' :: r3 =>
            if r3.takeWhile Char.isDigit = [] then none
            else some (natOfDigits (r2.takeWhile Char.isDigit),
                       natOfDigits (r3.takeWhile Char.isDigit))
          | _ => none
      | _ => none

/-- Leftmost search for `refAt`, one position at a time. -/
def searchRef : List Char → Option (Nat × Nat)
  | [] => none
  | c :: rest =>
    match refAt (c :: rest) with
    | some p => some p
    | none => searchRef rest

/-- Model of `re.search(r'/channels/\d+/(\d+)/(\d+)', message_link)` with
`int` applied to the two captured groups. -/
def parseMessageRef (s : String) : Option (Nat × Nat) :=
  searchRef s.data

/-- The embed part of a previously sent message as read back on the edit
path: its description, and its thumbnail URL and footer text with `none`
modelling an absent (falsy) thumbnail or footer. -/
structure EmbedState where
  description : String
  thumbnailUrl : Option String
  footerText : Option String
deriving DecidableEq

/-- A previously sent message as read back on the edit path:
`embedState = none` models `original_message.embeds` being empty, `content`
is the plain content, and `authorIsBot` models the author check. -/
structure PrevMsg where
  embedState : Option EmbedState
  content : String
  authorIsBot : Bool
deriving DecidableEq

/-- Longest prefix of the list strictly before the first occurrence of the
marker; the whole list when the marker does not occur. -/
def splitBefore (marker : List Char) : List Char → List Char
  | [] => []
  | c :: rest =>
    if marker.isPrefixOf (c :: rest) then []
    else c :: splitBefore marker rest

/-- Model of `description.split('\n\n**[')[0]` (line 174): the description
truncated at the first occurrence of the literal link-line marker. -/
def stripLinkLine (s : String) : String :=
  String.mk (splitBefore "\n\n**[".data s.data)

/-- The new base text of an edit (lines 170-176): the supplied `message`
value whenever the key maps to a value, even the empty string (`is None`
check); otherwise the previous embed description with the link line
stripped, or the previous plain content. -/
def editBase (fm : FieldMap) (prev : PrevMsg) : String :=
  match fmGet fm "message" with
  | some m => m
  | none =>
    match prev.embedState with
    | some e => stripLinkLine e.description
    | none => prev.content

/-- Override-or-inherit merge of one embed field (the if/elif pairs at
lines 197-205): the fresh truthy value wins, otherwise the inherited one. -/
def mergeField (fresh inherited : Option String) : Option String :=
  match fresh with
  | some t => some t
  | none => inherited

/-- The thumbnail inherited from the previous message (line 199):
present only when the previous message was an embed with a truthy
thumbnail. -/
def prevThumb (prev : PrevMsg) : Option String :=
  match prev.embedState with
  | some e => e.thumbnailUrl
  | none => none

/-- The footer inherited from the previous message (line 204). -/
def prevFooter (prev : PrevMsg) : Option String :=
  match prev.embedState with
  | some e => e.footerText
  | none => none

/-- The edit render of `edit_message` (lines 170-207): compute the base
text, then branch on the truthiness of the four freshly supplied embed
fields alone; the embed branch appends the link line built from the fresh
fields only and merges thumbnail and footer override-or-inherit. -/
def renderEdit (fm : FieldMap) (prev : PrevMsg) : RenderedOutput :=
  let link := truthyGet fm "link"
  let linkText := truthyGet fm "link_text"
  let thumbnail := truthyGet fm "thumbnail"
  let footer := truthyGet fm "footer"
  if link = none ∧ linkText = none ∧ thumbnail = none ∧ footer = none then
    .plainText (editBase fm prev)
  else
    .embed (editBase fm prev ++ mkLinkLine link linkText)
      (mergeField thumbnail (prevThumb prev))
      (mergeField footer (prevFooter prev))

/-- Failure modes of the edit command up to the render (lines 139-167). -/
inductive EditErr
  | MissingArgs
  | InvalidMessageReference
  | ChannelNotFound
  | MessageNotFound
  | Forbidden
  | NotAuthored
  | QuoteError
deriving DecidableEq

/-- Result of the injected message-fetch capability. -/
inductive FetchResult
  | found (prev : PrevMsg)
  | notFound
  | forbidden
deriving DecidableEq

/-- The edit command pipeline of `edit_message` (lines 139-207), with the
channel lookup and message fetch as injected capabilities: argument checks,
reference parsing, channel lookup, fetch, author check, argument parsing,
then the edit render. -/
def editPipeline (msgLink argsStr : String) (getChannel : Nat → Option Nat)
    (fetchMessage : Nat → Nat → FetchResult) : Except EditErr RenderedOutput :=
  if msgLink = "" ∨ argsStr = "" then .error .MissingArgs
  else
    match parseMessageRef msgLink with
    | none => .error .InvalidMessageReference
    | some (cid, mid) =>
      match getChannel cid with
      | none => .error .ChannelNotFound
      | some ch =>
        match fetchMessage ch mid with
        | .notFound => .error .MessageNotFound
        | .forbidden => .error .Forbidden
        | .found prev =>
          if prev.authorIsBot = false then .error .NotAuthored
          else
            match parse_arguments argsStr with
            | none => .error .QuoteError
            | some fm => .ok (renderEdit fm prev)

/-- Modelled from the spec: a channel value "matching the exact mention
shape angle-bracket, hash, digits, close angle-bracket", i.e. the whole
value is the mention token — stated for comparison with the source's
`searchMention`, which searches the pattern anywhere in the value. -/
def specExactMention (s : String) : Bool :=
  match s.data with
  | '<' :: '#' :: rest =>
    rest.takeWhile Char.isDigit ≠ [] ∧ rest.dropWhile Char.isDigit = ['>']
  | _ => false

/-- Modelled from the spec: head match of the claimed two-segment
"channels/{channelId}/{messageId}" reference shape. -/
def specTwoSegAt (l : List Char) : Option (Nat × Nat) :=
  match dropPfx "channels/".data l with
  | none => none
  | some r1 =>
    if r1.takeWhile Char.isDigit = [] then none
    else
      match r1.dropWhile Char.isDigit with
      | '/' :: r2 =>
        if r2.takeWhile Char.isDigit = [] then none
        else some (natOfDigits (r1.takeWhile Char.isDigit),
                   natOfDigits (r2.takeWhile Char.isDigit))
      | _ => none

/-- Modelled from the spec: leftmost search for the two-segment shape. -/
def specTwoSegScan : List Char → Option (Nat × Nat)
  | [] => none
  | c :: rest =>
    match specTwoSegAt (c :: rest) with
    | some p => some p
    | none => specTwoSegScan rest

/-- Modelled from the spec: extraction of the channel and message
identifiers by pattern-matching the claimed "channels/{channelId}/{messageId}"
path shape anywhere in the reference. -/
def specTwoSegmentRef (s : String) : Option (Nat × Nat) :=
  specTwoSegScan s.data

/-- Modelled from the spec: truncation of a list at the first index where
the marker occurs, phrased independently of `splitBefore` as an indexed
search over all positions. -/
def specTrunc (marker s : List Char) : List Char :=
  match (List.range (s.length + 1)).find? (fun i => marker.isPrefixOf (s.drop i)) with
  | some i => s.take i
  | none => s


/-- Appending past a block that satisfies the predicate shifts `takeWhile`
and `dropWhile` over the block. -/
theorem takeWhile_dropWhile_append (p : Char → Bool) :
    ∀ (d r : List Char), (∀ x ∈ d, p x = true) →
      (d ++ r).takeWhile p = d ++ r.takeWhile p ∧
      (d ++ r).dropWhile p = r.dropWhile p
  | [], r, _ => by simp
  | c :: cs, r, hall => by
    have hc : p c = true := hall c (List.mem_cons_self _ _)
    have h2 := takeWhile_dropWhile_append p cs r
      (fun x hx => hall x (List.mem_cons_of_mem _ hx))
    simp [List.takeWhile_cons, List.dropWhile_cons, hc, h2.1, h2.2]

/-- A list all of whose elements satisfy the predicate is its own
`takeWhile`. -/
theorem takeWhile_all (p : Char → Bool) (l : List Char)
    (hall : ∀ x ∈ l, p x = true) : l.takeWhile p = l := by
  have h := takeWhile_dropWhile_append p l [] hall
  simpa using h.1

/-- Claim C8: the field-map builder splits each token at the first `=`,
lower-cases the key, keeps the value verbatim including later `=`
characters, silently drops tokens with no `=`, and on duplicate keys the
later occurrence wins. -/
theorem claim_C8_field_map :
    (∀ (ts1 ts2 : List String) (t : String), '=' ∉ t.data →
      buildFieldMap (ts1 ++ t :: ts2) = buildFieldMap (ts1 ++ ts2)) ∧
    (∀ (k v : List Char), '=' ∉ k →
      splitKV (String.mk (k ++ '=' :: v)) =
        some (String.mk (k.map Char.toLower), String.mk v)) ∧
    (∀ (ts : List String) (t k v : String), splitKV t = some (k, v) →
      fmGet (buildFieldMap (ts ++ [t])) k = some v ∧
      ∀ k2 : String, k2 ≠ k →
        fmGet (buildFieldMap (ts ++ [t])) k2 = fmGet (buildFieldMap ts) k2) := by
  refine ⟨?_, ?_, ?_⟩
  · intro ts1 ts2 t ht
    simp [buildFieldMap, List.filterMap_append, List.filterMap_cons, splitKV, ht]
  · intro k v hk
    have hmem : '=' ∈ k ++ '=' :: v :=
      List.mem_append_right _ (List.mem_cons_self _ _)
    have hall : ∀ x ∈ k, (fun c => !decide (c = '=')) x = true := by
      intro x hx
      have hne : x ≠ '=' := fun he => hk (he ▸ hx)
      simp [hne]
    have h := takeWhile_dropWhile_append (fun c => !decide (c = '=')) k ('=' :: v) hall
    simp only [splitKV, lowerStr]
    rw [if_pos hmem]
    simp [h.1, h.2, List.takeWhile_cons, List.dropWhile_cons]
  · intro ts t k v hkv
    have hb : buildFieldMap (ts ++ [t]) = buildFieldMap ts ++ [(k, v)] := by
      simp [buildFieldMap, List.filterMap_append, hkv]
    constructor
    · simp [fmGet, hb]
    · intro k2 hk2
      have hne : (k == k2) = false := by
        simpa using fun he => hk2 he.symm
      simp [fmGet, hb, hne]

/-- Claim C8 witness: last-write-wins on the concrete tokens of the spec
example. -/
theorem claim_C8_witness :
    fmGet (buildFieldMap (["k=1"] ++ ["k=2"])) "k" = some "2" :=
  (claim_C8_field_map.2.2 ["k=1"] "k=2" "k" "2" (by decide)).1

/-- Every character of the input being ordinary (no quote of either kind
and no backslash) keeps the tokenizer out of its quote and escape states,
so it cannot fail. -/
theorem tokenizeAux_total :
    ∀ (l : List Char), (∀ c ∈ l, c ≠ '"' ∧ c ≠ '\'' ∧ c ≠ '\\') →
      ∀ (tok : List Char) (quoted : Bool) (toks : List (List Char)),
        ∃ ts, tokenizeAux l ShState.norm tok quoted toks = some ts := by
  intro l
  induction l with
  | nil => exact fun _ tok quoted toks => ⟨_, rfl⟩
  | cons c rest ih =>
    intro h tok quoted toks
    have hc := h c (List.mem_cons_self _ _)
    have hr := fun x hx => h x (List.mem_cons_of_mem c hx)
    by_cases hws : isWs c = true
    · by_cases hq : tok ≠ [] ∨ quoted = true
      · simpa [tokenizeAux, hws, hq] using ih hr [] false (toks ++ [tok])
      · simpa [tokenizeAux, hws, hq] using ih hr [] false toks
    · simpa [tokenizeAux, hws, hc.1, hc.2.1, hc.2.2]
        using ih hr (tok ++ [c]) quoted toks

/-- Claim C9 (amended): the tokenizer splits on whitespace outside matching
quotes (the spec example evaluates as claimed) and fails on an unterminated
quote — but an unclosed quote is not its only failure mode: an input ending
in an unescaped backslash (a dangling escape) also fails, even with no
quote character anywhere.  Inputs with no quote and no backslash always
tokenize. -/
theorem claim_C9_tokenizer :
    tokenize "message=\"a b\" footer=c" = some ["message=a b", "footer=c"] ∧
    tokenize "message=\"a" = none ∧
    tokenize "a\\" = none ∧
    ∀ s : String, (∀ c ∈ s.data, c ≠ '"' ∧ c ≠ '\'' ∧ c ≠ '\\') →
      ∃ ts, tokenize s = some ts := by
  refine ⟨by decide, by decide, by decide, ?_⟩
  intro s hs
  obtain ⟨ts, hts⟩ := tokenizeAux_total s.data hs [] false []
  exact ⟨ts.map String.mk, by simp [tokenize, hts]⟩

/-- Claim C9 witness: the totality conjunct at a concrete quote-free
input. -/
theorem claim_C9_witness : ∃ ts, tokenize "message=hi there" = some ts :=
  claim_C9_tokenizer.2.2.2 "message=hi there" (by decide)

/-- Claim C9 counterexample: a trailing backslash with no quote character
in the input still fails, refuting "unbalanced quoting is the only failure
mode". -/
theorem claim_C9_cex :
    tokenize "message=a\\" = none ∧
    "message=a\\".data.contains '"' = false ∧
    "message=a\\".data.contains '\'' = false := by decide

/-- Unfolding of the edit render with its let bindings resolved. -/
theorem renderEdit_eq (fm : FieldMap) (prev : PrevMsg) :
    renderEdit fm prev =
      if truthyGet fm "link" = none ∧ truthyGet fm "link_text" = none ∧
          truthyGet fm "thumbnail" = none ∧ truthyGet fm "footer" = none then
        .plainText (editBase fm prev)
      else
        .embed (editBase fm prev ++
            mkLinkLine (truthyGet fm "link") (truthyGet fm "link_text"))
          (mergeField (truthyGet fm "thumbnail") (prevThumb prev))
          (mergeField (truthyGet fm "footer") (prevFooter prev)) := rfl

/-- Claim C2 (amended): the edit output is plain text exactly when none of
the current invocation's own link, link_text, thumbnail, footer values is
truthy, and an embed otherwise; the previous render plays no part in the
branch decision, so an edit supplying only a message against a previous
embed collapses it to plain text instead of preserving the embed. -/
theorem claim_C2_edit_branch :
    ∀ (fm : FieldMap) (prev : PrevMsg),
      (renderEdit fm prev = .plainText (editBase fm prev) ↔
        truthyGet fm "link" = none ∧ truthyGet fm "link_text" = none ∧
        truthyGet fm "thumbnail" = none ∧ truthyGet fm "footer" = none) ∧
      ((∃ d th fo, renderEdit fm prev = .embed d th fo) ↔
        ¬(truthyGet fm "link" = none ∧ truthyGet fm "link_text" = none ∧
          truthyGet fm "thumbnail" = none ∧ truthyGet fm "footer" = none)) := by
  intro fm prev
  rw [renderEdit_eq]
  by_cases h : truthyGet fm "link" = none ∧ truthyGet fm "link_text" = none ∧
      truthyGet fm "thumbnail" = none ∧ truthyGet fm "footer" = none
  · rw [if_pos h]
    constructor
    · exact iff_of_true rfl h
    · refine iff_of_false ?_ (not_not_intro h)
      rintro ⟨d, th, fo, hE⟩
      exact RenderedOutput.noConfusion hE
  · rw [if_neg h]
    constructor
    · refine iff_of_false ?_ h
      intro hE
      exact RenderedOutput.noConfusion hE
    · exact iff_of_true ⟨_, _, _, rfl⟩ h

/-- Claim C2 counterexample: a previous embed with base text "hi" and
thumbnail "t", edited with only a new message, yields plain text — the
claim demands an embed inheriting the thumbnail. -/
theorem claim_C2_cex :
    renderEdit [("message", "x")] ⟨some ⟨"hi", some "t", none⟩, "", true⟩ =
      .plainText "x" := by decide

/-- Claim C10: presence at the render stage is truthiness of the value (a
getter returning the empty string behaves as an absent key, the create
render reads only the truthy view, and an empty message fails as missing),
except on the edit path, where the message test is `is None`, so an
empty-string message is accepted as the new base text. -/
theorem claim_C10_truthiness :
    (∀ (fm : FieldMap) (k : String), fmGet fm k = some "" → truthyGet fm k = none) ∧
    (∀ fm fm2 : FieldMap, (∀ k, truthyGet fm k = truthyGet fm2 k) →
      renderCreate fm = renderCreate fm2) ∧
    (∀ fm : FieldMap, fmGet fm "message" = some "" →
      renderCreate fm = .error .MissingMessage) ∧
    (∀ (fm : FieldMap) (prev : PrevMsg), fmGet fm "message" = some "" →
      editBase fm prev = "") ∧
    (∀ prev : PrevMsg, renderEdit [("message", "")] prev = .plainText "") := by
  have hT : ∀ (fm : FieldMap) (k : String), fmGet fm k = some "" →
      truthyGet fm k = none := by
    intro fm k h
    simp [truthyGet, h]
  refine ⟨hT, ?_, ?_, ?_, ?_⟩
  · intro fm fm2 h
    simp only [renderCreate, h "message", h "link", h "link_text",
      h "thumbnail", h "footer"]
  · intro fm h
    simp [renderCreate, hT fm "message" h]
  · intro fm prev h
    simp [editBase, h]
  · intro prev
    rfl

/-- Unfolding of the create render with its let bindings resolved. -/
theorem renderCreate_eq (fm : FieldMap) :
    renderCreate fm =
      (match truthyGet fm "message" with
      | none => .error .MissingMessage
      | some m =>
        if truthyGet fm "link" = none ∧ truthyGet fm "link_text" = none ∧
            truthyGet fm "thumbnail" = none ∧ truthyGet fm "footer" = none then
          .ok (.plainText m)
        else
          .ok (.embed (m ++ mkLinkLine (truthyGet fm "link") (truthyGet fm "link_text"))
            (truthyGet fm "thumbnail") (truthyGet fm "footer"))) := rfl

/-- The recursive marker truncation used on the edit path agrees with the
indexed description of Python split: cut at the least index where the
marker is a prefix of the remaining list. -/
theorem splitBefore_eq_specTrunc (marker : List Char) :
    ∀ s : List Char, splitBefore marker s = specTrunc marker s
  | [] => by
    cases hp : marker.isPrefixOf ([] : List Char) with
    | true => simp [splitBefore, specTrunc, List.range_succ, hp]
    | false => simp [splitBefore, specTrunc, List.range_succ, hp]
  | c :: rest => by
    have ih := splitBefore_eq_specTrunc marker rest
    unfold specTrunc at ih ⊢
    rw [List.length_cons, List.range_succ_eq_map]
    rw [List.find?_cons]
    by_cases hp : marker.isPrefixOf (c :: rest) = true
    · simp [splitBefore, hp]
    · have h0 : marker.isPrefixOf (c :: rest) = false := by
        cases hB : marker.isPrefixOf (c :: rest) with
        | true => exact absurd hB hp
        | false => rfl
      simp only [List.drop_zero, h0]
      rw [List.find?_map]
      have hcomp : ((fun i => marker.isPrefixOf ((c :: rest).drop i)) ∘ Nat.succ) =
          (fun i => marker.isPrefixOf (rest.drop i)) := rfl
      rw [hcomp]
      cases hfind : List.find? (fun i => marker.isPrefixOf (rest.drop i))
          (List.range (rest.length + 1)) with
      | none =>
        rw [hfind] at ih
        simp [splitBefore, hp, ih]
      | some i =>
        rw [hfind] at ih
        simp [splitBefore, hp, ih, List.take_succ_cons]

/-- Claim C3: an edit with no `message` key inherits the base text from the
previous render — the plain content when the previous render was plain, and
the embed description truncated at the first occurrence of the literal
marker backslash-n backslash-n asterisk asterisk bracket when it was an
embed (so a base text containing the marker is truncated at it); a present
`message` value is used directly. -/
theorem claim_C3_edit_base :
    (∀ (fm : FieldMap) (prev : PrevMsg) (m : String),
      fmGet fm "message" = some m → editBase fm prev = m) ∧
    (∀ (fm : FieldMap) (prev : PrevMsg), fmGet fm "message" = none →
      prev.embedState = none → editBase fm prev = prev.content) ∧
    (∀ (fm : FieldMap) (prev : PrevMsg) (e : EmbedState),
      fmGet fm "message" = none → prev.embedState = some e →
      (editBase fm prev).data = specTrunc "\n\n**[".data e.description.data) ∧
    stripLinkLine "a\n\n**[b\n\n**[c" = "a" := by
  refine ⟨?_, ?_, ?_, by decide⟩
  · intro fm prev m h
    simp [editBase, h]
  · intro fm prev h he
    simp [editBase, h, he]
  · intro fm prev e h he
    simp [editBase, h, he, stripLinkLine, splitBefore_eq_specTrunc]

/-- Claim C3 witness: recovering the base text from a previous embed whose
description carries a link line. -/
theorem claim_C3_witness :
    (editBase [] ⟨some ⟨"hi\n\n**[X](http://x)**", none, none⟩, "", true⟩).data =
      specTrunc "\n\n**[".data "hi\n\n**[X](http://x)**".data :=
  claim_C3_edit_base.2.2.1 [] ⟨some ⟨"hi\n\n**[X](http://x)**", none, none⟩, "", true⟩
    ⟨"hi\n\n**[X](http://x)**", none, none⟩ (by decide) (by decide)

/-- Claim C1 (amended): a field map with a message and a link_text but no
link is not rejected — there is no DanglingLinkText error in the code; the
create render yields an embed whose description is just the message, the
label silently dropped, and the edit path drops the dangling label the
same way. -/
theorem claim_C1_dangling_label :
    (∀ (fm : FieldMap) (m lt : String),
      truthyGet fm "message" = some m → truthyGet fm "link" = none →
      truthyGet fm "link_text" = some lt →
      renderCreate fm =
        .ok (.embed m (truthyGet fm "thumbnail") (truthyGet fm "footer"))) ∧
    (∀ (fm : FieldMap) (prev : PrevMsg) (lt : String),
      truthyGet fm "link" = none → truthyGet fm "link_text" = some lt →
      renderEdit fm prev = .embed (editBase fm prev)
        (mergeField (truthyGet fm "thumbnail") (prevThumb prev))
        (mergeField (truthyGet fm "footer") (prevFooter prev))) := by
  constructor
  · intro fm m lt hm hl hlt
    simp [renderCreate_eq, hm, hl, hlt, mkLinkLine]
  · intro fm prev lt hl hlt
    have hcond : ¬(truthyGet fm "link" = none ∧ truthyGet fm "link_text" = none ∧
        truthyGet fm "thumbnail" = none ∧ truthyGet fm "footer" = none) := by
      rintro ⟨-, h2, -, -⟩
      rw [hlt] at h2
      cases h2
    rw [renderEdit_eq, if_neg hcond]
    simp [hl, mkLinkLine]

/-- Claim C1 counterexample: message plus link_text with no link renders
successfully as an embed with the label dropped, instead of failing. -/
theorem claim_C1_cex :
    renderCreate [("message", "hi"), ("link_text", "X")] =
      .ok (.embed "hi" none none) := by decide

/-- Claim C1 witness: the create conjunct at a concrete field map. -/
theorem claim_C1_witness :
    renderCreate [("message", "hi"), ("link_text", "X"), ("footer", "F")] =
      .ok (.embed "hi" none (some "F")) :=
  (claim_C1_dangling_label.1 [("message", "hi"), ("link_text", "X"), ("footer", "F")]
    "hi" "X" (by decide) (by decide) (by decide)).trans (by decide)

/-- Claim C4: whenever the edit renders an embed, thumbnail and footer are
merged override-or-inherit (fresh truthy value wins, else the previous
embed's value); and the link line comes only from the current invocation,
so with link and link_text both absent the description is exactly the base
text and no previous link is resurrected; the spec's round-trip example
evaluates as claimed. -/
theorem claim_C4_edit_merge :
    (∀ (fm : FieldMap) (prev : PrevMsg) (d : String) (th fo : Option String),
      renderEdit fm prev = .embed d th fo →
      th = mergeField (truthyGet fm "thumbnail") (prevThumb prev) ∧
      fo = mergeField (truthyGet fm "footer") (prevFooter prev)) ∧
    (∀ (fm : FieldMap) (prev : PrevMsg),
      truthyGet fm "link" = none → truthyGet fm "link_text" = none →
      renderEdit fm prev = .plainText (editBase fm prev) ∨
      renderEdit fm prev = .embed (editBase fm prev)
        (mergeField (truthyGet fm "thumbnail") (prevThumb prev))
        (mergeField (truthyGet fm "footer") (prevFooter prev))) ∧
    renderEdit [("footer", "new")] ⟨some ⟨"hi", some "t", none⟩, "", true⟩ =
      .embed "hi" (some "t") (some "new") := by
  refine ⟨?_, ?_, by decide⟩
  · intro fm prev d th fo hE
    rw [renderEdit_eq] at hE
    by_cases h : truthyGet fm "link" = none ∧ truthyGet fm "link_text" = none ∧
        truthyGet fm "thumbnail" = none ∧ truthyGet fm "footer" = none
    · rw [if_pos h] at hE
      exact RenderedOutput.noConfusion hE
    · rw [if_neg h] at hE
      injection hE with h1 h2 h3
      exact ⟨h2.symm, h3.symm⟩
  · intro fm prev hl hlt
    by_cases h : truthyGet fm "thumbnail" = none ∧ truthyGet fm "footer" = none
    · left
      rw [renderEdit_eq, if_pos ⟨hl, hlt, h.1, h.2⟩]
    · right
      have hcond : ¬(truthyGet fm "link" = none ∧ truthyGet fm "link_text" = none ∧
          truthyGet fm "thumbnail" = none ∧ truthyGet fm "footer" = none) :=
        fun hc => h ⟨hc.2.2.1, hc.2.2.2⟩
      rw [renderEdit_eq, if_neg hcond]
      simp [hl, mkLinkLine]

/-- Claim C4 witness: the merge conjunct applied to the round-trip
instance. -/
theorem claim_C4_witness :
    (some "t" : Option String) =
      mergeField (truthyGet [("footer", "new")] "thumbnail")
        (prevThumb ⟨some ⟨"hi", some "t", none⟩, "", true⟩) ∧
    (some "new" : Option String) =
      mergeField (truthyGet [("footer", "new")] "footer")
        (prevFooter ⟨some ⟨"hi", some "t", none⟩, "", true⟩) :=
  claim_C4_edit_merge.1 [("footer", "new")] ⟨some ⟨"hi", some "t", none⟩, "", true⟩
    "hi" (some "t") (some "new") (by decide)

/-- Claim C5: the create render requires a truthy message (absence is the
missing-message error); with no truthy embed field the output is the plain
message; otherwise an embed whose description is the message extended by
the bold link line when link (and optionally link_text) is truthy, with
thumbnail and footer attached as given. -/
theorem claim_C5_create_render :
    (∀ fm : FieldMap, truthyGet fm "message" = none →
      renderCreate fm = .error .MissingMessage) ∧
    (∀ (fm : FieldMap) (m : String), truthyGet fm "message" = some m →
      truthyGet fm "link" = none → truthyGet fm "link_text" = none →
      truthyGet fm "thumbnail" = none → truthyGet fm "footer" = none →
      renderCreate fm = .ok (.plainText m)) ∧
    (∀ (fm : FieldMap) (m l lt : String), truthyGet fm "message" = some m →
      truthyGet fm "link" = some l → truthyGet fm "link_text" = some lt →
      renderCreate fm =
        .ok (.embed (m ++ ("\n\n**[" ++ lt ++ "](" ++ l ++ ")**"))
          (truthyGet fm "thumbnail") (truthyGet fm "footer"))) ∧
    (∀ (fm : FieldMap) (m l : String), truthyGet fm "message" = some m →
      truthyGet fm "link" = some l → truthyGet fm "link_text" = none →
      renderCreate fm =
        .ok (.embed (m ++ ("\n\n**[" ++ l ++ "](" ++ l ++ ")**"))
          (truthyGet fm "thumbnail") (truthyGet fm "footer"))) ∧
    (∀ (fm : FieldMap) (m : String), truthyGet fm "message" = some m →
      truthyGet fm "link" = none →
      ¬(truthyGet fm "link_text" = none ∧ truthyGet fm "thumbnail" = none ∧
        truthyGet fm "footer" = none) →
      renderCreate fm =
        .ok (.embed m (truthyGet fm "thumbnail") (truthyGet fm "footer"))) := by
  refine ⟨?_, ?_, ?_, ?_, ?_⟩
  · intro fm h
    simp [renderCreate_eq, h]
  · intro fm m hm h1 h2 h3 h4
    simp [renderCreate_eq, hm, h1, h2, h3, h4]
  · intro fm m l lt hm hl hlt
    simp [renderCreate_eq, hm, hl, hlt, mkLinkLine]
  · intro fm m l hm hl hlt
    simp [renderCreate_eq, hm, hl, hlt, mkLinkLine]
  · intro fm m hm hl hrest
    have hcond : ¬(truthyGet fm "link" = none ∧ truthyGet fm "link_text" = none ∧
        truthyGet fm "thumbnail" = none ∧ truthyGet fm "footer" = none) := by
      rintro ⟨-, h2, h3, h4⟩
      exact hrest ⟨h2, h3, h4⟩
    simp only [renderCreate_eq, hm]
    rw [if_neg hcond]
    simp [hl, mkLinkLine]

/-- Claim C5 witness: the both-link-and-label conjunct at the spec's
concrete example. -/
theorem claim_C5_witness :
    renderCreate [("message", "hi"), ("link", "http://x"), ("link_text", "X")] =
      .ok (.embed "hi\n\n**[X](http://x)**" none none) :=
  (claim_C5_create_render.2.2.1 [("message", "hi"), ("link", "http://x"), ("link_text", "X")]
    "hi" "http://x" "X" (by decide) (by decide) (by decide)).trans (by decide)

/-- Claim C10 witness: a present-but-empty message on create fails as
missing. -/
theorem claim_C10_witness :
    renderCreate [("message", ""), ("footer", "f")] = .error .MissingMessage :=
  claim_C10_truthiness.2.2.1 [("message", ""), ("footer", "f")] (by decide)

/-- Dropping an appended prefix succeeds and returns the rest. -/
theorem dropPfx_append : ∀ (p r : List Char), dropPfx p (p ++ r) = some r
  | [], _ => rfl
  | c :: cs, r => by simp [dropPfx, dropPfx_append cs r]

/-- Every element of a `takeWhile` block satisfies the predicate. -/
theorem mem_takeWhile_sat (p : Char → Bool) :
    ∀ (l : List Char), ∀ x ∈ l.takeWhile p, p x = true
  | [], x, hx => by simp at hx
  | c :: cs, x, hx => by
    rw [List.takeWhile_cons] at hx
    by_cases hc : p c = true
    · rw [if_pos hc] at hx
      rcases List.mem_cons.mp hx with h | h
      · exact h ▸ hc
      · exact mem_takeWhile_sat p cs x h
    · rw [if_neg hc] at hx
      simp at hx

/-- A successful head match of the mention pattern decomposes the list into
the mention token followed by arbitrary trailing characters. -/
theorem mentionAt_some (l : List Char) (id : Nat) (h : mentionAt l = some id) :
    ∃ d post, l = '<' :: '#' :: (d ++ ('>' :: post)) ∧ d ≠ [] ∧
      ∀ x ∈ d, Char.isDigit x = true := by
  unfold mentionAt at h
  split at h
  · next rest =>
    split at h
    · next post hdrop =>
      split at h
      · exact absurd h (by simp)
      · next hne =>
        refine ⟨rest.takeWhile Char.isDigit, post, ?_, hne, fun x hx =>
          mem_takeWhile_sat Char.isDigit rest x hx⟩
        rw [← hdrop, List.takeWhile_append_dropWhile]
    · exact absurd h (by simp)
  · exact absurd h (by simp)

/-- The mention pattern matches at the head of a well-shaped mention
token. -/
theorem mentionAt_of_shape (d post : List Char) (hd : d ≠ [])
    (hdig : ∀ x ∈ d, Char.isDigit x = true) :
    mentionAt ('<' :: '#' :: (d ++ ('>' :: post))) = some (natOfDigits d) := by
  have h := takeWhile_dropWhile_append Char.isDigit d ('>' :: post) hdig
  have hgt : Char.isDigit '>' = false := rfl
  simp [mentionAt, h.1, h.2, List.takeWhile_cons, List.dropWhile_cons, hgt, hd]

/-- Claim C7 (amended): channel resolution falls back to the origin channel
when the channel key is absent; when present, the mention pattern is
searched anywhere inside the value (not matched against the whole value):
a value with no mention substring is the invalid-format error, a lookup
miss on the extracted identifier reports channel-not-found with the raw
input, and a hit resolves; the search succeeds exactly on values containing
a digits-bearing mention token somewhere. -/
theorem claim_C7_channel_resolution :
    (∀ (fm : FieldMap) (origin : Nat) (lookup : Nat → Option Nat),
      fmGet fm "channel" = none → resolveChannel fm origin lookup = .ok origin) ∧
    (∀ (fm : FieldMap) (origin : Nat) (lookup : Nat → Option Nat) (raw : String),
      fmGet fm "channel" = some raw → searchMention raw.data = none →
      resolveChannel fm origin lookup = .error .InvalidChannelFormat) ∧
    (∀ (fm : FieldMap) (origin : Nat) (lookup : Nat → Option Nat) (raw : String)
        (id : Nat), fmGet fm "channel" = some raw →
      searchMention raw.data = some id → lookup id = none →
      resolveChannel fm origin lookup = .error (.ChannelNotFound raw)) ∧
    (∀ (fm : FieldMap) (origin : Nat) (lookup : Nat → Option Nat) (raw : String)
        (id ch : Nat), fmGet fm "channel" = some raw →
      searchMention raw.data = some id → lookup id = some ch →
      resolveChannel fm origin lookup = .ok ch) ∧
    (∀ l : List Char, (searchMention l).isSome = true ↔
      ∃ pre d post, l = pre ++ ('<' :: '#' :: (d ++ ('>' :: post))) ∧ d ≠ [] ∧
        ∀ x ∈ d, Char.isDigit x = true) := by
  refine ⟨?_, ?_, ?_, ?_, ?_⟩
  · intro fm origin lookup h
    simp [resolveChannel, h]
  · intro fm origin lookup raw h hs
    simp [resolveChannel, h, hs]
  · intro fm origin lookup raw id h hs hl
    simp [resolveChannel, h, hs, hl]
  · intro fm origin lookup raw id ch h hs hl
    simp [resolveChannel, h, hs, hl]
  · intro l
    induction l with
    | nil =>
      constructor
      · intro h
        simp [searchMention] at h
      · rintro ⟨pre, d, post, hEq, -, -⟩
        exact absurd hEq (by cases pre <;> simp)
    | cons c rest ih =>
      cases hma : mentionAt (c :: rest) with
      | some id =>
        constructor
        · intro _
          obtain ⟨d, post, hEq, hd, hdig⟩ := mentionAt_some (c :: rest) id hma
          exact ⟨[], d, post, hEq, hd, hdig⟩
        · intro _
          simp [searchMention, hma]
      | none =>
        have hstep : searchMention (c :: rest) = searchMention rest := by
          simp [searchMention, hma]
        rw [hstep, ih]
        constructor
        · rintro ⟨pre, d, post, hEq, hd, hdig⟩
          exact ⟨c :: pre, d, post, by rw [hEq]; rfl, hd, hdig⟩
        · rintro ⟨pre, d, post, hEq, hd, hdig⟩
          cases pre with
          | nil =>
            exfalso
            rw [List.nil_append] at hEq
            rw [hEq, mentionAt_of_shape d post hd hdig] at hma
            cases hma
          | cons p0 pre2 =>
            refine ⟨pre2, d, post, ?_, hd, hdig⟩
            rw [List.cons_append] at hEq
            injection hEq with _ h2

/-- Claim C7 counterexample: the mention token embedded inside other text
resolves successfully, although the value does not match the exact mention
shape as a whole — the claim demands InvalidChannelFormat here. -/
theorem claim_C7_cex :
    resolveChannel [("channel", "x<#12>y")] 0
        (fun n => if n = 12 then some 12 else none) = .ok 12 ∧
    specExactMention "x<#12>y" = false := by decide

/-- Claim C7 witness: a lookup hit on a plain mention value. -/
theorem claim_C7_witness :
    resolveChannel [("channel", "<#5>")] 0
        (fun n => if n = 5 then some 9 else none) = .ok 9 :=
  claim_C7_channel_resolution.2.2.2.1 [("channel", "<#5>")] 0
    (fun n => if n = 5 then some 9 else none) "<#5>" 5 9
    (by decide) (by decide) (by decide)

/-- The three-segment reference pattern matches at the head of a well-shaped
reference, extracting the second and third digit runs. -/
theorem refAt_of_shape (g c m : List Char) (hg : g ≠ []) (hc : c ≠ []) (hm : m ≠ [])
    (hgd : ∀ x ∈ g, Char.isDigit x = true) (hcd : ∀ x ∈ c, Char.isDigit x = true)
    (hmd : ∀ x ∈ m, Char.isDigit x = true) :
    refAt ("/channels/".data ++ (g ++ ('/' :: (c ++ ('/' :: m))))) =
      some (natOfDigits c, natOfDigits m) := by
  have hslash : Char.isDigit '/' = false := rfl
  have hsl : ¬(Char.isDigit '/' = true) := by
    rw [hslash]
    exact Bool.false_ne_true
  have h1 := dropPfx_append "/channels/".data (g ++ ('/' :: (c ++ ('/' :: m))))
  have hga := takeWhile_dropWhile_append Char.isDigit g ('/' :: (c ++ ('/' :: m))) hgd
  have hca := takeWhile_dropWhile_append Char.isDigit c ('/' :: m) hcd
  have hTg : List.takeWhile Char.isDigit (g ++ ('/' :: (c ++ ('/' :: m)))) = g := by
    rw [hga.1, List.takeWhile_cons, if_neg hsl, List.append_nil]
  have hDg : List.dropWhile Char.isDigit (g ++ ('/' :: (c ++ ('/' :: m)))) =
      '/' :: (c ++ ('/' :: m)) := by
    rw [hga.2, List.dropWhile_cons, if_neg hsl]
  have hTc : List.takeWhile Char.isDigit (c ++ ('/' :: m)) = c := by
    rw [hca.1, List.takeWhile_cons, if_neg hsl, List.append_nil]
  have hDc : List.dropWhile Char.isDigit (c ++ ('/' :: m)) = '/' :: m := by
    rw [hca.2, List.dropWhile_cons, if_neg hsl]
  have hTm := takeWhile_all Char.isDigit m hmd
  unfold refAt
  simp only [h1, hTg, hDg, hTc, hDc, hTm]
  rw [if_neg hg, if_neg hc, if_neg hm]

/-- A head match of the reference pattern is what the leftmost search
returns. -/
theorem searchRef_head (l : List Char) (p : Nat × Nat) (h : refAt l = some p) :
    searchRef l = some p := by
  cases l with
  | nil =>
    rw [(by decide : refAt ([] : List Char) = none)] at h
    cases h
  | cons c rest =>
    simp [searchRef, h]

/-- Claim C6 (amended): the edit reference is accepted exactly when it
contains a substring of the shape slash channels slash digits slash digits
slash digits — three numeric segments, the first (the guild identifier)
matched but discarded, the second and third extracted as channel and
message identifiers; a reference with no such substring (in particular the
claimed two-segment channels/channelId/messageId shape) fails with the
invalid-reference error before the channel-lookup or message-fetch
capability can influence the outcome. -/
theorem claim_C6_message_reference :
    (∀ g c m : List Char, g ≠ [] → c ≠ [] → m ≠ [] →
      (∀ x ∈ g, Char.isDigit x = true) → (∀ x ∈ c, Char.isDigit x = true) →
      (∀ x ∈ m, Char.isDigit x = true) →
      parseMessageRef (String.mk ("/channels/".data ++ (g ++ ('/' :: (c ++ ('/' :: m)))))) =
        some (natOfDigits c, natOfDigits m)) ∧
    parseMessageRef "channels/12/34" = none ∧
    (∀ (msgLink argsStr : String) (getChannel : Nat → Option Nat)
        (fetchMessage : Nat → Nat → FetchResult),
      msgLink ≠ "" → argsStr ≠ "" → parseMessageRef msgLink = none →
      editPipeline msgLink argsStr getChannel fetchMessage =
        .error .InvalidMessageReference) ∧
    (∀ (msgLink argsStr : String) (getChannel : Nat → Option Nat)
        (fetchMessage : Nat → Nat → FetchResult) (cid mid : Nat),
      parseMessageRef msgLink = some (cid, mid) →
      editPipeline msgLink argsStr getChannel fetchMessage ≠
        .error .InvalidMessageReference) := by
  refine ⟨?_, by decide, ?_, ?_⟩
  · intro g c m hg hc hm hgd hcd hmd
    exact searchRef_head _ _ (refAt_of_shape g c m hg hc hm hgd hcd hmd)
  · intro msgLink argsStr getChannel fetchMessage h1 h2 hp
    simp [editPipeline, h1, h2, hp]
  · intro msgLink argsStr getChannel fetchMessage cid mid hp
    by_cases h0 : msgLink = "" ∨ argsStr = ""
    · simp only [editPipeline, if_pos h0]
      intro hE
      cases hE
    · simp only [editPipeline, if_neg h0, hp]
      cases hgc : getChannel cid with
      | none => simp [hgc]
      | some ch =>
        cases hf : fetchMessage ch mid with
        | notFound => simp [hgc, hf]
        | forbidden => simp [hgc, hf]
        | found prev =>
          by_cases hA : prev.authorIsBot = false
          · simp [hgc, hf, hA]
          · cases hpa : parse_arguments argsStr with
            | none => simp [hgc, hf, hA, hpa]
            | some fm => simp [hgc, hf, hA, hpa]

/-- Claim C6 counterexample: a reference in the claimed two-segment shape
carries both identifiers yet is rejected by the code, whose pattern
requires three numeric segments. -/
theorem claim_C6_cex :
    parseMessageRef "/channels/12/34" = none ∧
    specTwoSegmentRef "/channels/12/34" = some (12, 34) := by decide

/-- Claim C6 witness: the acceptance conjunct at a concrete three-segment
reference. -/
theorem claim_C6_witness :
    parseMessageRef (String.mk ("/channels/".data ++ (['1'] ++ ('/' :: (['2'] ++ ('/' :: ['3'])))))) =
      some (natOfDigits ['2'], natOfDigits ['3']) :=
  claim_C6_message_reference.1 ['1'] ['2'] ['3'] (by decide) (by decide) (by decide)
    (by decide) (by decide) (by decide)

end LeiseBot
